import Mathlib

/-!
Shallow embedding of the tinyssh server (github.com/dollarkillerx/tinyssh)
in Lean 4, covering:

* `internal/config/config.go` — configuration defaulting and validation;
* `internal/server/server.go` — the password callback `validateUser` and
  the host-key store `loadOrCreateHostKey`;
* `internal/server/session.go` — the per-channel session request handler
  (`sessionHandler.handle`), its `start` closure, `sendExitStatus`, and the
  pure signal-name translator `sshSignalToOS`.

Pure Go functions become Lean functions.  The stateful session handler
becomes an explicit state record plus a step function on parsed requests;
the concurrent parts (child termination, the reaper goroutine guarded by
`sync.Once`) become labelled transitions of a small transition system, and
temporal claims are proved over all event traces.  Machine integers are
modelled as `Nat` with explicit `% 2^w` where Go performs a narrowing
conversion.  External library calls (ssh.Unmarshal, pty allocation, the
OS) are modelled as oracle inputs: a payload arrives already parsed or as
a parse failure, and `start` receives a boolean telling whether the
process launch succeeds.
-/

deriving instance DecidableEq for Except

namespace TinySSH

/-! ## Configuration (`internal/config/config.go`) -/

/-- One entry of the `users` array of the JSON configuration. -/
structure User where
  username : String
  password : String
deriving DecidableEq, Repr

/-- The configuration record, with the unexported `configDir` field that
`Load` fills from the directory of the config path. -/
structure Config where
  listenAddress : String
  listenPort    : Int
  hostKeyPath   : String
  shell         : String
  users         : List User
  configDir     : String
deriving DecidableEq, Repr

/-- Model of Go `filepath.IsAbs` on Unix: the path starts with a slash. -/
def isAbsPath (p : String) : Bool :=
  p.startsWith "/"

/-- Model of Go `filepath.Join` for two components, eliding the `Clean`
normalisation the standard library performs (irrelevant to the claims). -/
def joinPath (a b : String) : String :=
  if a = "" then b else a ++ "/" ++ b

/-- Translation of `Config.applyDefaults`.  `envShell` is the result of
`os.Getenv("SHELL")` (empty string when unset). -/
def Config.applyDefaults (envShell : String) (c : Config) : Config :=
  let c :=
    if c.listenAddress = "" then
      { c with listenAddress :=
          if c.listenPort > 0 then ":" ++ toString c.listenPort else ":2222" }
    else c
  let c :=
    if c.hostKeyPath = "" then
      { c with hostKeyPath := joinPath c.configDir "tinyssh_host_key" }
    else if ¬ isAbsPath c.hostKeyPath then
      { c with hostKeyPath := joinPath c.configDir c.hostKeyPath }
    else c
  let c :=
    if c.shell = "" then
      if envShell ≠ "" then { c with shell := envShell }
      else { c with shell := "/bin/sh" }
    else c
  c

/-- The error kinds `Config.validate` can return. -/
inductive ConfigErr where
  | listenAddressRequired
  | noUsers
  | emptyUsername
  | emptyPassword (username : String)
  | duplicateUser (username : String)
deriving DecidableEq, Repr

/-- The per-user loop of `Config.validate`, carrying the `seen` set of
already-checked usernames. -/
def validateUsers (seen : List String) : List User → Except ConfigErr Unit
  | [] => .ok ()
  | user :: rest =>
      let username := user.username.trim
      if username = "" then .error .emptyUsername
      else if user.password = "" then .error (.emptyPassword username)
      else if username ∈ seen then .error (.duplicateUser username)
      else validateUsers (username :: seen) rest

/-- Translation of `Config.validate`. -/
def Config.validate (c : Config) : Except ConfigErr Unit :=
  if c.listenAddress = "" then .error .listenAddressRequired
  else if c.users.length = 0 then .error .noUsers
  else validateUsers [] c.users

/-! ## Password callback (`Server.validateUser` in `server.go`) -/

namespace Server

/-- Model of Go `subtle.ConstantTimeCompare` on byte strings (bytes as
`Nat`): return 0 immediately when the lengths differ, otherwise OR
together the XOR of every byte pair and report 1 exactly when the
accumulated difference is zero. -/
def constantTimeCompare (x y : List Nat) : Nat :=
  if x.length ≠ y.length then 0
  else if ((List.zip x y).foldl (fun v p => v ||| (p.1 ^^^ p.2)) 0) = 0 then 1
  else 0

/-- Number of byte positions the comparison loop of
`subtle.ConstantTimeCompare` touches: 0 on a length mismatch (the function
returns immediately), otherwise the full common length regardless of
where the contents first differ. -/
def constantTimeCompareCost (x y : List Nat) : Nat :=
  if x.length ≠ y.length then 0 else x.length

/-- UTF-8 bytes of a string, as the Go conversion `[]byte(s)` produces
(spelled with the pure character encoder so that it evaluates). -/
def strBytes (s : String) : List Nat :=
  (s.data.flatMap String.utf8EncodeChar).map (fun b => b.toNat)

/-- The two rejection errors `Server.validateUser` can return; each one
carries the message text built by `fmt.Errorf`. -/
inductive AuthErr where
  | unknownUser (msg : String)
  | invalidCredentials (msg : String)
deriving DecidableEq, Repr

/-- Translation of `Server.validateUser`.  The credential map
`s.creds` is modelled as an association list with unique keys (it is
built by `Config.Credentials` from validated, duplicate-free users). -/
def validateUser (creds : List (String × String)) (user : String)
    (password : List Nat) : Except AuthErr Unit :=
  match creds.lookup user with
  | none => .error (.unknownUser ("unknown user " ++ user))
  | some expected =>
      if constantTimeCompare (strBytes expected) password ≠ 1 then
        .error (.invalidCredentials ("invalid credentials for " ++ user))
      else .ok ()

/-! ## Host-key store (`loadOrCreateHostKey` in `server.go`) -/

/-- Error kinds of the host-key store. -/
inductive HostKeyErr where
  | hostKeyIOError
  | hostKeyGenerate
  | hostKeyParse
deriving DecidableEq, Repr

/-- A filesystem snapshot: an association of paths to file contents. -/
structure FSState where
  files : List (String × List Nat)
deriving DecidableEq, Repr

/-- Model of `os.ReadFile`: the stored bytes, or none when the file does
not exist. -/
def fsRead (fs : FSState) (path : String) : Option (List Nat) :=
  fs.files.lookup path

/-- Model of `os.WriteFile`: record the new contents for the path. -/
def fsWrite (fs : FSState) (path : String) (contents : List Nat) : FSState :=
  ⟨(path, contents) :: fs.files⟩

/-- Translation of `loadOrCreateHostKey`.  `parseKey` models
`ssh.ParsePrivateKey` (signers as abstract values of type `Nat`),
`genKey` models `generateHostKey` (`none` = RSA generation failed),
`mkdirOk` and `writeOk` are the success of `os.MkdirAll` and
`os.WriteFile`.  The result carries the final filesystem and the list of
writes performed. -/
def loadOrCreateHostKey (parseKey : List Nat → Option Nat)
    (genKey : Option (List Nat)) (mkdirOk writeOk : Bool)
    (fs : FSState) (path : String) :
    Except HostKeyErr Nat × FSState × List (String × List Nat) :=
  if ¬ mkdirOk then (.error .hostKeyIOError, fs, [])
  else
    match fsRead fs path with
    | some pemBytes =>
        match parseKey pemBytes with
        | some signer => (.ok signer, fs, [])
        | none => (.error .hostKeyParse, fs, [])
    | none =>
        match genKey with
        | none => (.error .hostKeyGenerate, fs, [])
        | some pemBytes =>
            if ¬ writeOk then (.error .hostKeyIOError, fs, [])
            else
              match parseKey pemBytes with
              | some signer =>
                  (.ok signer, fsWrite fs path pemBytes, [(path, pemBytes)])
              | none =>
                  (.error .hostKeyParse, fsWrite fs path pemBytes,
                   [(path, pemBytes)])

end Server

/-! ## Session handler (`internal/server/session.go`) -/

namespace Session

/-- The OS signals `sshSignalToOS` can produce. -/
inductive OSSignal where
  | SIGINT
  | SIGTERM
  | SIGKILL
  | SIGQUIT
  | SIGHUP
deriving DecidableEq, Repr

/-- Model of `strings.TrimPrefix(s, "SIG")`: drop the three leading
characters when they are `SIG`, otherwise return the string unchanged
(stated on the character list; for the ASCII prefix `"SIG"` this agrees
with the byte-level prefix test Go performs). -/
def trimSIG (s : String) : String :=
  if "SIG".data.isPrefixOf s.data then String.mk (s.data.drop 3) else s

/-- Translation of `sshSignalToOS`: strip one leading "SIG"
(`strings.TrimPrefix`), then the `switch` over the five recognised
names; anything else maps to `none` (Go `nil`). -/
def sshSignalToOS (signal : String) : Option OSSignal :=
  let signal := trimSIG signal
  if signal = "INT" then some .SIGINT
  else if signal = "TERM" then some .SIGTERM
  else if signal = "KILL" then some .SIGKILL
  else if signal = "QUIT" then some .SIGQUIT
  else if signal = "HUP" then some .SIGHUP
  else none

/-- How the child process terminated, as the OS reports it. -/
inductive Termination where
  | exited (code : Nat)
  | signaled
  | startFailure
deriving DecidableEq, Repr

/-- The value `c.Wait()` hands to `sendExitStatus`, abstracting Go error
values: `none` for a nil error; `exitError code` for an `*exec.ExitError`
whose `ExitCode()` returned `code` (negative for signal death); and
`otherError` for any other non-nil error. -/
inductive WaitResult where
  | noError
  | exitError (code : Int)
  | otherError
deriving DecidableEq, Repr

/-- What Go `(*exec.Cmd).Wait` returns for each kind of child
termination: nil on a zero exit code, an `*exec.ExitError` with the exit
code for a non-zero normal exit, an `*exec.ExitError` whose `ExitCode()`
is -1 for signal death, and a non-ExitError error for failures such as
exec failing after start. -/
def goWaitResult : Termination → WaitResult
  | .exited 0 => .noError
  | .exited code => .exitError code
  | .signaled => .exitError (-1)
  | .startFailure => .otherError

/-- The status computation of `sendExitStatus`: 0 for a nil error; for an
`*exec.ExitError`, `uint32(code)` when `ExitCode() >= 0` and 255
otherwise; 255 for any other error.  `uint32` conversion of a
non-negative Go int is reduction mod `2^32`. -/
def sendExitStatusVal : WaitResult → Nat
  | .noError => 0
  | .exitError code => if 0 ≤ code then code.toNat % 2 ^ 32 else 255
  | .otherError => 255

/-- The observable actions a session step can perform besides the request
reply itself. -/
inductive Effect where
  | startSuccess (command : String)
  | setPtySize (cols rows : Nat)
  | signalChild (sig : OSSignal)
  | exitStatus (status : Nat)
  | closePtmx
deriving DecidableEq, Repr

/-- The mutable per-session locals of `sessionHandler.handle`:
`env`, `wantPTY`, `cols`, `rows` (uint32, modelled as `Nat`), the child
command handle `cmd` (`none` = Go `nil`, i.e. not started), the PTY
master `ptmx`, plus the two pieces of reaper state: the recorded child
termination (set when the child actually exits; `c.Wait` returns only
after that) and the `sync.Once` flag `finished`. -/
structure GState where
  env          : List String
  wantPTY      : Bool
  cols         : Nat
  rows         : Nat
  cmd          : Option Unit
  ptmx         : Option Unit
  termination  : Option Termination
  finishedDone : Bool
deriving DecidableEq, Repr

/-- The initial session state built at the top of
`sessionHandler.handle`: the process environment (`baseEnv`) extended
with `USER`, `LOGNAME`, `HOME=/` and `SHELL=<configured shell>`. -/
def initState (baseEnv : List String) (user shell : String) : GState :=
  { env := baseEnv ++
      ["USER=" ++ user, "LOGNAME=" ++ user, "HOME=/", "SHELL=" ++ shell]
    wantPTY := false
    cols := 0
    rows := 0
    cmd := none
    ptmx := none
    termination := none
    finishedDone := false }

/-- The error results of the `start` closure. -/
inductive StartErr where
  | sessionAlreadyRunning
  | startFailed
deriving DecidableEq, Repr

/-- Whether a `start` result is a success, i.e. the Go test
`err == nil` applied to the value `start` returned. -/
def isOk : Except StartErr Unit → Bool
  | .ok _ => true
  | .error _ => false

/-- Translation of the `start` closure.  Under the session mutex: if
`cmd != nil`, fail with the "session already running" error and change
nothing.  Otherwise attempt the launch; `launchOk` is the oracle for
whether the pty allocation / stdin pipe / `c.Start()` sequence succeeds.
On success the child handle is stored (`cmd = c`) and, in the PTY path,
the PTY master is stored; on failure every partially acquired handle has
been released and the state is unchanged (`pty.Start` returns a nil
master on error, and the non-PTY path never sets one). -/
def start (s : GState) (command : String) (launchOk : Bool) :
    Except StartErr Unit × GState × List Effect :=
  if s.cmd.isSome then (.error .sessionAlreadyRunning, s, [])
  else if launchOk then
    (.ok (),
     { s with cmd := some (), ptmx := if s.wantPTY then some () else s.ptmx },
     [.startSuccess command])
  else (.error .startFailed, s, [])

/-- Payload of a `pty-req` request, after `ssh.Unmarshal`. -/
structure PtyPayload where
  term   : String
  cols   : Nat
  rows   : Nat
  width  : Nat
  height : Nat
deriving DecidableEq, Repr

/-- Payload of an `env` request, after `ssh.Unmarshal`. -/
structure EnvPayload where
  key   : String
  value : String
deriving DecidableEq, Repr

/-- Payload of a `window-change` request, after `ssh.Unmarshal`. -/
structure WinPayload where
  cols   : Nat
  rows   : Nat
  width  : Nat
  height : Nat
deriving DecidableEq, Repr

/-- A channel request as the request loop sees it.  Each payload is the
result of `ssh.Unmarshal`: `none` models a parse failure. -/
inductive Req where
  | ptyReq (p : Option PtyPayload)
  | env (p : Option EnvPayload)
  | windowChange (p : Option WinPayload)
  | shell
  | exec (p : Option String)
  | signal (p : Option String)
  | other
deriving DecidableEq, Repr

/-- One iteration of the request loop of `sessionHandler.handle`:
dispatch on the request type, returning the new state, the reply sent
(`none` when `req.WantReply` is false or no reply is sent), and the side
effects.  `launchOk` is the launch oracle consumed by `start` on
`shell`/`exec`. -/
def handleReq (s : GState) (r : Req) (wantReply : Bool) (launchOk : Bool) :
    GState × Option Bool × List Effect :=
  match r with
  | .ptyReq none => (s, if wantReply then some false else none, [])
  | .ptyReq (some p) =>
      let s := { s with wantPTY := true, cols := p.cols, rows := p.rows }
      let s :=
        if p.term ≠ "" then { s with env := s.env ++ ["TERM=" ++ p.term] }
        else s
      (s, if wantReply then some true else none, [])
  | .env none => (s, if wantReply then some false else none, [])
  | .env (some p) =>
      if p.key ≠ "" then
        ({ s with env := s.env ++ [p.key ++ "=" ++ p.value] },
         if wantReply then some true else none, [])
      else (s, if wantReply then some false else none, [])
  | .windowChange p =>
      if s.ptmx.isSome then
        match p with
        | some payload =>
            ({ s with cols := payload.cols, rows := payload.rows },
             if wantReply then some true else none,
             [.setPtySize (payload.cols % 2 ^ 16) (payload.rows % 2 ^ 16)])
        | none => (s, if wantReply then some true else none, [])
      else (s, if wantReply then some true else none, [])
  | .shell =>
      let st := start s "" launchOk
      (st.2.1, if wantReply then some (isOk st.1) else none, st.2.2)
  | .exec none => (s, if wantReply then some false else none, [])
  | .exec (some command) =>
      let st := start s command launchOk
      (st.2.1, if wantReply then some (isOk st.1) else none, st.2.2)
  | .signal none => (s, if wantReply then some true else none, [])
  | .signal (some name) =>
      match sshSignalToOS name with
      | some sig =>
          if s.cmd.isSome then
            (s, if wantReply then some true else none, [.signalChild sig])
          else (s, if wantReply then some true else none, [])
      | none => (s, if wantReply then some true else none, [])
  | .other => (s, if wantReply then some false else none, [])

/-- An event of a session run: a request arriving on the channel, the
child process terminating, or the reaper goroutine running (its
`c.Wait()` has returned, so it can only fire after the child
terminated). -/
inductive Label where
  | request (r : Req) (wantReply : Bool) (launchOk : Bool)
  | childExits (t : Termination)
  | reap
deriving DecidableEq, Repr

/-- One transition of the session system.  Labels whose precondition does
not hold in the current state (a child exiting when none was started, the
reaper running before `c.Wait()` could have returned) are impossible in
the real system and act as no-ops. -/
def gstep (s : GState) : Label → GState × List Effect
  | .request r wantReply launchOk =>
      let hr := handleReq s r wantReply launchOk
      (hr.1, hr.2.2)
  | .childExits t =>
      if s.cmd.isSome ∧ s.termination = none then
        ({ s with termination := some t }, [])
      else (s, [])
  | .reap =>
      match s.termination with
      | some t =>
          if s.finishedDone then (s, [])
          else
            ({ s with finishedDone := true },
             .exitStatus (sendExitStatusVal (goWaitResult t)) ::
               (if s.ptmx.isSome then [.closePtmx] else []))
      | none => (s, [])

/-- Run a whole trace of events from a state, accumulating effects. -/
def runTrace (s : GState) : List Label → GState × List Effect
  | [] => (s, [])
  | l :: ls =>
      let first := gstep s l
      let rest := runTrace first.1 ls
      (rest.1, first.2 ++ rest.2)

/-- Whether an effect is the sending of an `exit-status` request. -/
def isExitStatus : Effect → Bool
  | .exitStatus _ => true
  | _ => false

/-- Whether an effect is a successful `start` commit. -/
def isStartSuccess : Effect → Bool
  | .startSuccess _ => true
  | _ => false

/-- Number of `exit-status` sends in an effect list. -/
def countExit (effs : List Effect) : Nat :=
  (effs.filter isExitStatus).length

/-- Number of successful starts in an effect list. -/
def countStart (effs : List Effect) : Nat :=
  (effs.filter isStartSuccess).length

end Session

/-- A concrete started session state: the initial state of a session for
user `u` with shell `/bin/sh` after a successful `shell` request
(`cmd != nil`). -/
def startedState : Session.GState :=
  { Session.initState [] "u" "/bin/sh" with cmd := some () }

end TinySSH

/-! ## Helper lemmas -/

namespace TinySSH

/-- A bitwise OR of naturals is zero exactly when both operands are. -/
theorem nat_or_eq_zero_iff (a b : Nat) : a ||| b = 0 ↔ a = 0 ∧ b = 0 := by
  constructor
  · intro h
    refine ⟨Nat.zero_of_testBit_eq_false fun i => ?_,
            Nat.zero_of_testBit_eq_false fun i => ?_⟩ <;>
    · have ht := congrArg (fun n => Nat.testBit n i) h
      simp [Nat.testBit_or] at ht
      simp [ht]
  · rintro ⟨rfl, rfl⟩
    rfl

/-- The OR-of-XORs accumulator loop of the constant-time comparison is
zero exactly when the accumulator started at zero and every paired byte
agrees. -/
theorem foldl_or_xor_eq_zero (l : List (Nat × Nat)) :
    ∀ a : Nat, (l.foldl (fun v p => v ||| (p.1 ^^^ p.2)) a = 0 ↔
      a = 0 ∧ ∀ p ∈ l, p.1 = p.2) := by
  induction l with
  | nil => intro a; simp
  | cons p l ih =>
      intro a
      simp only [List.foldl_cons, ih, List.mem_cons, nat_or_eq_zero_iff,
        Nat.xor_eq_zero]
      constructor
      · rintro ⟨⟨ha, hp⟩, hrest⟩
        exact ⟨ha, fun q hq => hq.elim (fun h => h ▸ hp) (hrest q)⟩
      · rintro ⟨ha, hall⟩
        exact ⟨⟨ha, hall p (Or.inl rfl)⟩, fun q hq => hall q (Or.inr hq)⟩

/-- Every pair obtained by zipping a list with itself is diagonal. -/
theorem mem_zip_self (x : List Nat) : ∀ p ∈ List.zip x x, p.1 = p.2 := by
  induction x with
  | nil => simp
  | cons a xs ih =>
      intro p hp
      simp only [List.zip_cons_cons, List.mem_cons] at hp
      rcases hp with h | h
      · rw [h]
      · exact ih p h

/-- Lists of equal length whose zip is pointwise diagonal are equal. -/
theorem zip_eq_of_length_eq (x y : List Nat) (hlen : x.length = y.length)
    (h : ∀ p ∈ List.zip x y, p.1 = p.2) : x = y := by
  induction x generalizing y with
  | nil => cases y with | nil => rfl | cons b ys => simp at hlen
  | cons a xs ih =>
      cases y with
      | nil => simp at hlen
      | cons b ys =>
          simp only [List.zip_cons_cons, List.mem_cons] at h
          have hab : a = b := h (a, b) (Or.inl rfl)
          have := ih ys (by simpa using hlen) (fun p hp => h p (Or.inr hp))
          rw [hab, this]

/-- The modelled `subtle.ConstantTimeCompare` returns 1 exactly on equal
byte strings, as its Go documentation states. -/
theorem constantTimeCompare_eq_one_iff (x y : List Nat) :
    Server.constantTimeCompare x y = 1 ↔ x = y := by
  unfold Server.constantTimeCompare
  split_ifs with hlen hz
  · simp only [Nat.zero_ne_one, false_iff]
    intro h
    exact hlen (h ▸ rfl)
  · simp only [true_iff]
    rw [foldl_or_xor_eq_zero] at hz
    push_neg at hlen
    exact zip_eq_of_length_eq x y hlen hz.2
  · simp only [Nat.zero_ne_one, false_iff]
    intro h
    subst h
    exact hz ((foldl_or_xor_eq_zero _ 0).mpr ⟨rfl, mem_zip_self x⟩)

/-- A string starting with a colon is never empty. -/
theorem colon_append_ne_empty (s : String) : (":" ++ s) ≠ "" := by
  intro h
  have h2 := congrArg String.length h
  simp only [String.length_append] at h2
  have h3 : ":".length = 1 := rfl
  have h4 : "".length = 0 := rfl
  omega

/-- The listen address produced by `applyDefaults`, isolated from the
host-key-path and shell defaulting that follows it. -/
theorem applyDefaults_listenAddress (envShell : String) (c : Config) :
    (c.applyDefaults envShell).listenAddress =
      if c.listenAddress = "" then
        (if c.listenPort > 0 then ":" ++ toString c.listenPort else ":2222")
      else c.listenAddress := by
  simp only [Config.applyDefaults]
  split_ifs <;> simp_all [apply_ite]

/-- The per-user validation loop only ever reports user-related errors,
never the missing-listen-address error. -/
theorem validateUsers_ne_listenAddressRequired (us : List User) :
    ∀ seen : List String,
      validateUsers seen us ≠ .error .listenAddressRequired := by
  induction us with
  | nil => intro seen; simp [validateUsers]
  | cons u rest ih =>
      intro seen
      simp only [validateUsers]
      split_ifs <;> simp [ih]

/-- A name whose SIG-stripped form is none of the five recognised ones
translates to no OS signal. -/
theorem sshSignalToOS_unrecognised (name : String)
    (h : Session.trimSIG name ∉ ["INT", "TERM", "KILL", "QUIT", "HUP"]) :
    Session.sshSignalToOS name = none := by
  simp only [List.mem_cons, List.not_mem_nil, or_false, not_or] at h
  obtain ⟨h1, h2, h3, h4, h5⟩ := h
  simp [Session.sshSignalToOS, h1, h2, h3, h4, h5]

/-- Status computed for an `*exec.ExitError` carrying a non-negative
(`Nat`-valued) exit code: the code reduced mod `2^32`. -/
theorem sendExitStatusVal_natCast (n : Nat) :
    Session.sendExitStatusVal (.exitError (n : Int)) = n % 2 ^ 32 := by
  simp [Session.sendExitStatusVal]

end TinySSH

/-! ## Session step lemmas used by the trace invariants -/

namespace TinySSH

/-- Concatenating effect lists adds their exit-status counts. -/
theorem countExit_append (a b : List Session.Effect) :
    Session.countExit (a ++ b) = Session.countExit a + Session.countExit b := by
  simp [Session.countExit, List.filter_append]

/-- Concatenating effect lists adds their successful-start counts. -/
theorem countStart_append (a b : List Session.Effect) :
    Session.countStart (a ++ b) =
      Session.countStart a + Session.countStart b := by
  simp [Session.countStart, List.filter_append]

/-- Unfolding of `runTrace` on a cons trace. -/
theorem runTrace_cons (s : Session.GState) (l : Session.Label)
    (ls : List Session.Label) :
    Session.runTrace s (l :: ls) =
      ((Session.runTrace (Session.gstep s l).1 ls).1,
       (Session.gstep s l).2 ++ (Session.runTrace (Session.gstep s l).1 ls).2)
    := rfl

/-- Request handling never touches the reaper state: the recorded child
termination and the `sync.Once` flag are preserved by every request. -/
theorem handleReq_preserves_reaper (s : Session.GState) (r : Session.Req)
    (wantReply launchOk : Bool) :
    (Session.handleReq s r wantReply launchOk).1.termination = s.termination ∧
    (Session.handleReq s r wantReply launchOk).1.finishedDone =
      s.finishedDone := by
  cases r with
  | ptyReq p =>
      cases p <;> simp [Session.handleReq] <;> split_ifs <;> simp
  | env p =>
      cases p <;> simp [Session.handleReq] <;> split_ifs <;> simp
  | windowChange p =>
      cases p <;> simp [Session.handleReq] <;> split_ifs <;> simp
  | shell =>
      simp only [Session.handleReq, Session.start]
      split_ifs <;> simp
  | exec p =>
      cases p with
      | none => simp [Session.handleReq]
      | some command =>
          simp only [Session.handleReq, Session.start]
          split_ifs <;> simp
  | signal p =>
      cases p with
      | none => simp [Session.handleReq]
      | some name =>
          simp only [Session.handleReq]
          cases Session.sshSignalToOS name <;> simp <;> split_ifs <;> simp
  | other => simp [Session.handleReq]

/-- Request handling never emits an `exit-status` send; only the reaper
does. -/
theorem handleReq_no_exit (s : Session.GState) (r : Session.Req)
    (wantReply launchOk : Bool) :
    Session.countExit (Session.handleReq s r wantReply launchOk).2.2 = 0 := by
  cases r with
  | ptyReq p =>
      cases p <;> simp [Session.handleReq, Session.countExit] <;>
        split_ifs <;> simp [Session.countExit]
  | env p =>
      cases p <;> simp [Session.handleReq, Session.countExit] <;>
        split_ifs <;> simp [Session.countExit]
  | windowChange p =>
      cases p <;>
        simp [Session.handleReq, Session.countExit, Session.isExitStatus] <;>
        split_ifs <;>
        simp [Session.countExit, Session.isExitStatus]
  | shell =>
      simp only [Session.handleReq, Session.start]
      split_ifs <;> simp [Session.countExit, Session.isExitStatus]
  | exec p =>
      cases p with
      | none => simp [Session.handleReq, Session.countExit]
      | some command =>
          simp only [Session.handleReq, Session.start]
          split_ifs <;> simp [Session.countExit, Session.isExitStatus]
  | signal p =>
      cases p with
      | none => simp [Session.handleReq, Session.countExit]
      | some name =>
          simp only [Session.handleReq]
          cases Session.sshSignalToOS name <;>
            simp [Session.countExit, Session.isExitStatus] <;>
            split_ifs <;> simp [Session.countExit, Session.isExitStatus]
  | other => simp [Session.handleReq, Session.countExit]

/-- One request adds a successful start to the effect log only by moving
the child handle from `nil` to non-`nil`: counting the started flag before
plus the starts logged by the step never exceeds the flag after. -/
theorem handleReq_cmd_bound (s : Session.GState) (r : Session.Req)
    (wantReply launchOk : Bool) :
    (if s.cmd.isSome then 1 else 0) +
      Session.countStart (Session.handleReq s r wantReply launchOk).2.2 ≤
      (if (Session.handleReq s r wantReply launchOk).1.cmd.isSome then 1
       else 0) := by
  cases r with
  | ptyReq p =>
      cases p <;> simp [Session.handleReq, Session.countStart] <;>
        split_ifs <;> simp [Session.countStart]
  | env p =>
      cases p <;> simp [Session.handleReq, Session.countStart] <;>
        split_ifs <;> simp [Session.countStart]
  | windowChange p =>
      cases p <;>
        simp [Session.handleReq, Session.countStart, Session.isStartSuccess]
        <;> split_ifs <;> simp [Session.countStart, Session.isStartSuccess]
  | shell =>
      simp only [Session.handleReq, Session.start]
      split_ifs <;>
        simp_all [Session.countStart, Session.isStartSuccess]
  | exec p =>
      cases p with
      | none => simp [Session.handleReq, Session.countStart]
      | some command =>
          simp only [Session.handleReq, Session.start]
          split_ifs <;>
            simp_all [Session.countStart, Session.isStartSuccess]
  | signal p =>
      cases p with
      | none => simp [Session.handleReq, Session.countStart]
      | some name =>
          cases hsig : Session.sshSignalToOS name <;>
            simp [Session.handleReq, hsig, Session.countStart,
              Session.isStartSuccess] <;>
            split_ifs <;> simp [Session.countStart, Session.isStartSuccess]
  | other => simp [Session.handleReq, Session.countStart]

/-- One transition sends `exit-status` only by flipping the `sync.Once`
flag from unfired to fired. -/
theorem gstep_exit_bound (s : Session.GState) (l : Session.Label) :
    (if s.finishedDone then 1 else 0) +
      Session.countExit (Session.gstep s l).2 ≤
      (if (Session.gstep s l).1.finishedDone then 1 else 0) := by
  cases l with
  | request r wantReply launchOk =>
      have h1 := (handleReq_preserves_reaper s r wantReply launchOk).2
      have h2 := handleReq_no_exit s r wantReply launchOk
      simp only [Session.gstep, h1, h2]
      omega
  | childExits t =>
      simp only [Session.gstep]
      split_ifs <;> simp [Session.countExit]
  | reap =>
      cases ht : s.termination with
      | none => simp [Session.gstep, ht, Session.countExit]
      | some t =>
          by_cases hf : s.finishedDone <;>
            by_cases hp : s.ptmx.isSome <;>
            simp [Session.gstep, ht, hf, hp, Session.countExit,
              Session.isExitStatus]

/-- One transition logs a successful start only by moving the child
handle from `nil` to non-`nil`. -/
theorem gstep_start_bound (s : Session.GState) (l : Session.Label) :
    (if s.cmd.isSome then 1 else 0) +
      Session.countStart (Session.gstep s l).2 ≤
      (if (Session.gstep s l).1.cmd.isSome then 1 else 0) := by
  cases l with
  | request r wantReply launchOk =>
      exact handleReq_cmd_bound s r wantReply launchOk
  | childExits t =>
      simp only [Session.gstep]
      split_ifs <;> simp [Session.countStart]
  | reap =>
      cases ht : s.termination with
      | none => simp [Session.gstep, ht, Session.countStart]
      | some t =>
          by_cases hf : s.finishedDone <;>
            by_cases hp : s.ptmx.isSome <;>
            simp [Session.gstep, ht, hf, hp, Session.countStart,
              Session.isStartSuccess]

/-- Along any trace, the number of `exit-status` sends plus the initial
state of the `sync.Once` flag never exceeds one. -/
theorem runTrace_exit_le (tr : List Session.Label) :
    ∀ s : Session.GState,
      (if s.finishedDone then 1 else 0) +
        Session.countExit (Session.runTrace s tr).2 ≤ 1 := by
  induction tr with
  | nil =>
      intro s
      simp only [Session.runTrace, Session.countExit, List.filter_nil,
        List.length_nil]
      split_ifs <;> omega
  | cons l ls ih =>
      intro s
      have h1 := gstep_exit_bound s l
      have h2 := ih (Session.gstep s l).1
      rw [runTrace_cons, countExit_append]
      omega

/-- Along any trace, the number of successful starts plus the initial
started flag never exceeds one. -/
theorem runTrace_start_le (tr : List Session.Label) :
    ∀ s : Session.GState,
      (if s.cmd.isSome then 1 else 0) +
        Session.countStart (Session.runTrace s tr).2 ≤ 1 := by
  induction tr with
  | nil =>
      intro s
      simp only [Session.runTrace, Session.countStart, List.filter_nil,
        List.length_nil]
      split_ifs <;> omega
  | cons l ls ih =>
      intro s
      have h1 := gstep_start_bound s l
      have h2 := ih (Session.gstep s l).1
      rw [runTrace_cons, countStart_append]
      omega

/-- A trace starting with no recorded termination can only send
`exit-status` if it contains a child-termination event. -/
theorem runTrace_exit_needs_childExits (tr : List Session.Label) :
    ∀ s : Session.GState, s.termination = none →
      0 < Session.countExit (Session.runTrace s tr).2 →
      ∃ t, Session.Label.childExits t ∈ tr := by
  induction tr with
  | nil =>
      intro s _ hpos
      simp [Session.runTrace, Session.countExit] at hpos
  | cons l ls ih =>
      intro s hterm hpos
      rw [runTrace_cons, countExit_append] at hpos
      cases l with
      | request r wantReply launchOk =>
          have h0 : Session.countExit
              (Session.gstep s (.request r wantReply launchOk)).2 = 0 :=
            handleReq_no_exit s r wantReply launchOk
          have h1 :
              (Session.gstep s (.request r wantReply launchOk)).1.termination
                = none := by
            have := (handleReq_preserves_reaper s r wantReply launchOk).1
            simp only [Session.gstep]
            rw [this, hterm]
          obtain ⟨t, ht⟩ :=
            ih (Session.gstep s (.request r wantReply launchOk)).1 h1
              (by omega)
          exact ⟨t, List.mem_cons_of_mem _ ht⟩
      | childExits t => exact ⟨t, List.mem_cons_self _ _⟩
      | reap =>
          have h0 : Session.countExit (Session.gstep s .reap).2 = 0 := by
            simp [Session.gstep, hterm, Session.countExit]
          have h1 : (Session.gstep s .reap).1 = s := by
            simp [Session.gstep, hterm]
          rw [h0, h1] at hpos
          obtain ⟨t, ht⟩ := ih s hterm (by omega)
          exact ⟨t, List.mem_cons_of_mem _ ht⟩

end TinySSH

/-! ## Claim theorems -/

namespace TinySSH

/-- C1. Single-commit rule: along every trace of a session started from
the initial state, at most one `shell`/`exec` start succeeds; and in any
state whose child handle is already set (`cmd != nil`, i.e. `started`),
`start` fails with the session-already-running error, the `shell` or
`exec` request is replied `false` (when a reply is requested), and the
whole session state — child handle and started flag included — is left
unchanged. -/
theorem single_commit :
    (∀ (baseEnv : List String) (user shell : String)
       (tr : List Session.Label),
       Session.countStart
         (Session.runTrace (Session.initState baseEnv user shell) tr).2 ≤ 1) ∧
    (∀ (s : Session.GState) (command : String) (launchOk : Bool),
       s.cmd.isSome = true →
       Session.start s command launchOk =
         (.error .sessionAlreadyRunning, s, [])) ∧
    (∀ (s : Session.GState) (wantReply launchOk : Bool),
       s.cmd.isSome = true →
       Session.handleReq s .shell wantReply launchOk =
         (s, if wantReply then some false else none, [])) ∧
    (∀ (s : Session.GState) (command : String) (wantReply launchOk : Bool),
       s.cmd.isSome = true →
       Session.handleReq s (.exec (some command)) wantReply launchOk =
         (s, if wantReply then some false else none, [])) := by
  refine ⟨?_, ?_, ?_, ?_⟩
  · intro baseEnv user shell tr
    have h := runTrace_start_le tr (Session.initState baseEnv user shell)
    simpa [Session.initState] using h
  · intro s command launchOk h
    simp [Session.start, h]
  · intro s wantReply launchOk h
    simp [Session.handleReq, Session.start, Session.isOk, h]
  · intro s command wantReply launchOk h
    simp [Session.handleReq, Session.start, Session.isOk, h]

/-- C1 witness: a second `shell` on a concrete started state is replied
`false` and changes nothing. -/
theorem single_commit_witness :
    Session.handleReq startedState .shell true true =
      (startedState, some false, []) :=
  single_commit.2.2.1 startedState true true (by rfl)

/-- C2. Along every trace from the initial session state, the
`exit-status` request is sent at most once, and any trace containing an
`exit-status` send contains a child-termination event; since this holds
of every trace, it holds of every prefix, so the send can only happen
after the wait on the child has completed (the reaper transition is
enabled only once the termination has been recorded). -/
theorem exit_status_once_and_only_after_wait :
    ∀ (baseEnv : List String) (user shell : String)
      (tr : List Session.Label),
      Session.countExit
        (Session.runTrace (Session.initState baseEnv user shell) tr).2 ≤ 1 ∧
      (0 < Session.countExit
          (Session.runTrace (Session.initState baseEnv user shell) tr).2 →
        ∃ t, Session.Label.childExits t ∈ tr) := by
  intro baseEnv user shell tr
  constructor
  · have h := runTrace_exit_le tr (Session.initState baseEnv user shell)
    simpa [Session.initState] using h
  · exact runTrace_exit_needs_childExits tr
      (Session.initState baseEnv user shell) rfl

/-- C2 witness: a concrete trace that does send `exit-status` indeed
contains the child-termination event. -/
theorem exit_status_once_witness :
    ∃ t, Session.Label.childExits t ∈
      ([.request .shell true true, .childExits (.exited 0), .reap] :
        List Session.Label) :=
  (exit_status_once_and_only_after_wait [] "u" "/bin/sh"
    [.request .shell true true, .childExits (.exited 0), .reap]).2
    (by decide)

/-- C3 counterexample: the two rejection paths of `validateUser` return
distinct error values — an unknown user yields the "unknown user" error
while a wrong password for a known user yields the "invalid credentials"
error — so the rejection produced by the callback is not indistinct
between the two cases. -/
theorem validateUser_distinct_rejections :
    Server.validateUser [("bob", "pw")] "alice" [0] =
      .error (.unknownUser "unknown user alice") ∧
    Server.validateUser [("bob", "pw")] "bob" [0] =
      .error (.invalidCredentials "invalid credentials for bob") ∧
    Server.validateUser [("bob", "pw")] "alice" [0] ≠
      Server.validateUser [("bob", "pw")] "bob" [0] := by
  refine ⟨by decide, by decide, by decide⟩

/-- C3 (amended). The password callback accepts exactly when the user is
present and the stored password equals the supplied bytes; it rejects on
an unknown user with the "unknown user" error and on a mismatch with the
"invalid credentials" error (two distinct error values — any
indistinctness towards the peer is provided by the SSH library, not by
this callback); the stored-password comparison is the constant-time
comparison, which decides equality correctly and whose work depends only
on the lengths of its inputs, never on where they first differ. -/
theorem validateUser_reject_conditions :
    (∀ (creds : List (String × String)) (user : String) (password : List Nat),
       Server.validateUser creds user password = .ok () ↔
         ∃ expected, creds.lookup user = some expected ∧
           Server.strBytes expected = password) ∧
    (∀ (creds : List (String × String)) (user : String) (password : List Nat),
       creds.lookup user = none →
       Server.validateUser creds user password =
         .error (.unknownUser ("unknown user " ++ user))) ∧
    (∀ (creds : List (String × String)) (user : String) (password : List Nat)
       (expected : String),
       creds.lookup user = some expected →
       Server.strBytes expected ≠ password →
       Server.validateUser creds user password =
         .error (.invalidCredentials ("invalid credentials for " ++ user))) ∧
    (∀ x y : List Nat, Server.constantTimeCompare x y = 1 ↔ x = y) ∧
    (∀ x y x2 y2 : List Nat, x.length = x2.length → y.length = y2.length →
       Server.constantTimeCompareCost x y =
         Server.constantTimeCompareCost x2 y2) := by
  refine ⟨?_, ?_, ?_, constantTimeCompare_eq_one_iff, ?_⟩
  · intro creds user password
    unfold Server.validateUser
    cases h : creds.lookup user with
    | none => simp
    | some expected =>
        simp only [h]
        split_ifs with hc
        · simp only [reduceCtorEq, false_iff]
          rintro ⟨e, he, hb⟩
          cases he
          exact hc ((constantTimeCompare_eq_one_iff _ _).mpr hb)
        · push_neg at hc
          simp only [Except.ok.injEq, true_iff]
          exact ⟨expected, rfl, (constantTimeCompare_eq_one_iff _ _).mp hc⟩
  · intro creds user password h
    simp only [Server.validateUser, h]
  · intro creds user password expected h hne
    simp only [Server.validateUser, h]
    rw [if_pos]
    intro hc
    exact hne ((constantTimeCompare_eq_one_iff _ _).mp hc)
  · intro x y x2 y2 hx hy
    unfold Server.constantTimeCompareCost
    rw [hx, hy]

/-- C3 witness: the mismatch branch on a concrete credential set. -/
theorem validateUser_reject_conditions_witness :
    Server.validateUser [("bob", "pw")] "bob" [0] =
      .error (.invalidCredentials "invalid credentials for bob") :=
  validateUser_reject_conditions.2.2.1 [("bob", "pw")] "bob" [0] "pw"
    (by decide) (by decide)

/-- C4 counterexample: on a started session (`cmd != nil`), an `env`
request with a non-empty key is still appended to `env` and replied
`true`, not replied `false` with `env` unchanged as the claim states —
the `env` case of the request loop has no started guard. -/
theorem env_after_start_still_accepted :
    (Session.handleReq startedState (.env (some ⟨"FOO", "bar"⟩)) true
        true).2.1 = some true ∧
    (Session.handleReq startedState (.env (some ⟨"FOO", "bar"⟩)) true
        true).1.env = startedState.env ++ ["FOO=bar"] ∧
    (Session.handleReq startedState (.env (some ⟨"FOO", "bar"⟩)) true
        true).1.env ≠ startedState.env := by
  refine ⟨by decide, by decide, by decide⟩

/-- C4 (amended). In every session state — before or after start alike,
since the code does not guard `env` on the started flag: an `env` request
whose payload fails to parse or whose `Key` is empty is replied `false`
and leaves the state unchanged; one with a non-empty `Key` appends
`Key=Value` to `env` and is replied `true` (after start the appended
entries simply have no effect on the already-running child). -/
theorem env_request_behavior :
    ∀ (s : Session.GState) (wantReply launchOk : Bool),
      (Session.handleReq s (.env none) wantReply launchOk =
        (s, if wantReply then some false else none, [])) ∧
      (∀ p : Session.EnvPayload, p.key = "" →
        Session.handleReq s (.env (some p)) wantReply launchOk =
          (s, if wantReply then some false else none, [])) ∧
      (∀ p : Session.EnvPayload, p.key ≠ "" →
        Session.handleReq s (.env (some p)) wantReply launchOk =
          ({ s with env := s.env ++ [p.key ++ "=" ++ p.value] },
           if wantReply then some true else none, [])) := by
  intro s wantReply launchOk
  refine ⟨rfl, ?_, ?_⟩
  · intro p hp
    simp [Session.handleReq, hp]
  · intro p hp
    simp [Session.handleReq, hp]

/-- C4 witness: a concrete `env` request with a non-empty key appends and
replies `true`. -/
theorem env_request_behavior_witness :
    Session.handleReq (Session.initState [] "u" "/bin/sh")
        (.env (some ⟨"FOO", "bar"⟩)) true true =
      ({ Session.initState [] "u" "/bin/sh" with
          env := (Session.initState [] "u" "/bin/sh").env ++ ["FOO=bar"] },
       some true, []) :=
  (env_request_behavior (Session.initState [] "u" "/bin/sh") true true).2.2
    ⟨"FOO", "bar"⟩ (by decide)

/-- C5 counterexample: a `pty-req` arriving on a started session
(`cmd != nil`) is not ignored and not replied `false`: its payload is
recorded and the reply is `true` — the `pty-req` case of the request loop
has no started guard. -/
theorem ptyreq_after_start_still_accepted :
    (Session.handleReq startedState
        (.ptyReq (some ⟨"xterm", 80, 24, 0, 0⟩)) true true).2.1 = some true ∧
    (Session.handleReq startedState
        (.ptyReq (some ⟨"xterm", 80, 24, 0, 0⟩)) true true).1 ≠
      startedState := by
  refine ⟨by decide, by decide⟩

/-- C5 (amended). A `pty-req` is handled identically before and after
start, since the code does not guard it on the started flag: the reply is
success iff the payload parses, and on success `pty_requested` is set,
`cols`/`rows` are recorded, and `TERM=<value>` is appended to `env` when
the payload carries a non-empty `TERM` (after start these changes have no
effect on the already-running child). -/
theorem ptyreq_request_behavior :
    ∀ (s : Session.GState) (wantReply launchOk : Bool),
      (Session.handleReq s (.ptyReq none) wantReply launchOk =
        (s, if wantReply then some false else none, [])) ∧
      (∀ p : Session.PtyPayload,
        (Session.handleReq s (.ptyReq (some p)) wantReply launchOk).2.1 =
            (if wantReply then some true else none) ∧
        (Session.handleReq s (.ptyReq (some p)) wantReply launchOk).2.2 = [] ∧
        (Session.handleReq s (.ptyReq (some p)) wantReply launchOk).1 =
          { s with
              wantPTY := true, cols := p.cols, rows := p.rows,
              env := if p.term ≠ "" then s.env ++ ["TERM=" ++ p.term]
                     else s.env }) := by
  intro s wantReply launchOk
  refine ⟨rfl, ?_⟩
  intro p
  by_cases ht : p.term = "" <;> simp [Session.handleReq, ht]

/-- C5 witness: a concrete parsed `pty-req` records the terminal size and
TERM variable. -/
theorem ptyreq_request_behavior_witness :
    (Session.handleReq startedState
        (.ptyReq (some ⟨"xterm", 80, 24, 0, 0⟩)) true true).1 =
      { startedState with
          wantPTY := true, cols := 80, rows := 24,
          env := startedState.env ++ ["TERM=xterm"] } := by
  have h := (ptyreq_request_behavior startedState true true).2
    ⟨"xterm", 80, 24, 0, 0⟩
  rw [h.2.2]
  decide

/-- C6 counterexample: a well-formed `window-change` on a session with no
open PTY master does not update the recorded `cols`/`rows` (the update
only happens inside the `ptmx != nil` branch), yet is still replied
`true`; the claim that `cols`/`rows` are updated whether or not a PTY
master is open is therefore false. -/
theorem windowchange_without_pty_ignored :
    (Session.handleReq (Session.initState [] "u" "/bin/sh")
        (.windowChange (some ⟨100, 50, 0, 0⟩)) true true).1.cols = 0 ∧
    (Session.handleReq (Session.initState [] "u" "/bin/sh")
        (.windowChange (some ⟨100, 50, 0, 0⟩)) true true).1.rows = 0 ∧
    (Session.handleReq (Session.initState [] "u" "/bin/sh")
        (.windowChange (some ⟨100, 50, 0, 0⟩)) true true) =
      (Session.initState [] "u" "/bin/sh", some true, []) := by
  refine ⟨by decide, by decide, by decide⟩

/-- C6 (amended). A `window-change` request updates the recorded
`cols`/`rows` and applies the size (truncated to 16 bits) to the PTY
master only when a PTY master is open and the payload parses; with no PTY
master open, or on a parse failure, the state is unchanged; in every case
the reply, when requested, is `true`. -/
theorem windowchange_behavior :
    ∀ (s : Session.GState) (wantReply launchOk : Bool),
      (s.ptmx = none → ∀ p : Option Session.WinPayload,
        Session.handleReq s (.windowChange p) wantReply launchOk =
          (s, if wantReply then some true else none, [])) ∧
      (s.ptmx.isSome = true → ∀ p : Session.WinPayload,
        Session.handleReq s (.windowChange (some p)) wantReply launchOk =
          ({ s with cols := p.cols, rows := p.rows },
           if wantReply then some true else none,
           [.setPtySize (p.cols % 2 ^ 16) (p.rows % 2 ^ 16)])) ∧
      (s.ptmx.isSome = true →
        Session.handleReq s (.windowChange none) wantReply launchOk =
          (s, if wantReply then some true else none, [])) ∧
      (∀ p : Option Session.WinPayload,
        (Session.handleReq s (.windowChange p) wantReply launchOk).2.1 =
          if wantReply then some true else none) := by
  intro s wantReply launchOk
  refine ⟨?_, ?_, ?_, ?_⟩
  · intro hp p
    cases p <;> simp [Session.handleReq, hp]
  · intro hp p
    simp [Session.handleReq, hp]
  · intro hp
    simp [Session.handleReq, hp]
  · intro p
    by_cases hp : s.ptmx.isSome <;> cases p <;> simp [Session.handleReq, hp]

/-- C6 witness: with a PTY master open, a concrete resize is recorded and
applied. -/
theorem windowchange_behavior_witness :
    Session.handleReq { startedState with ptmx := some () }
        (.windowChange (some ⟨120, 40, 0, 0⟩)) true true =
      ({ startedState with ptmx := some (), cols := 120, rows := 40 },
       some true, [.setPtySize 120 40]) := by
  have h := (windowchange_behavior { startedState with ptmx := some () }
    true true).2.1 (by rfl) ⟨120, 40, 0, 0⟩
  rw [h]
  decide

/-- C7. When the host-key file already exists, `loadOrCreateHostKey`
performs no write at all and leaves the filesystem unchanged, and
(provided the directory-ensuring step succeeds) its result is exactly the
parse of the existing bytes: the file, once created, is never overwritten
by a subsequent run. -/
theorem hostKey_existing_file_preserved
    (parseKey : List Nat → Option Nat) (genKey : Option (List Nat))
    (mkdirOk writeOk : Bool) (fs : Server.FSState) (path : String)
    (b : List Nat) (hb : Server.fsRead fs path = some b) :
    (Server.loadOrCreateHostKey parseKey genKey mkdirOk writeOk fs path).2.2
      = [] ∧
    (Server.loadOrCreateHostKey parseKey genKey mkdirOk writeOk fs path).2.1
      = fs ∧
    (mkdirOk = true →
      (Server.loadOrCreateHostKey parseKey genKey mkdirOk writeOk fs path).1 =
        match parseKey b with
        | some signer => .ok signer
        | none => .error .hostKeyParse) := by
  unfold Server.loadOrCreateHostKey
  cases mkdirOk with
  | false => simp
  | true =>
      simp only [Bool.not_true, Bool.false_eq_true, if_false, hb]
      cases parseKey b <;> simp

/-- C7 witness: a concrete filesystem with an existing host-key file is
returned unchanged with no writes, and the existing bytes are parsed. -/
theorem hostKey_existing_file_preserved_witness :
    (Server.loadOrCreateHostKey (fun bytes => some bytes.length) (some [1])
        true true ⟨[("hostkey", [1, 2])]⟩ "hostkey").2.2 = [] ∧
    (Server.loadOrCreateHostKey (fun bytes => some bytes.length) (some [1])
        true true ⟨[("hostkey", [1, 2])]⟩ "hostkey").1 = .ok 2 := by
  have h := hostKey_existing_file_preserved (fun bytes => some bytes.length)
    (some [1]) true true ⟨[("hostkey", [1, 2])]⟩ "hostkey" [1, 2] (by decide)
  exact ⟨h.1, h.2.2 rfl⟩

/-- C8. The `exit-status` value sent for a terminated child is the exit
code itself for a normal exit (any code below `2^32`), and 255 for signal
death or any other non-normal termination, including a failure after
start reported by a non-ExitError; every status sent fits in 32 bits. -/
theorem exit_status_mapping :
    (∀ code : Nat, code < 2 ^ 32 →
      Session.sendExitStatusVal (Session.goWaitResult (.exited code)) = code) ∧
    Session.sendExitStatusVal (Session.goWaitResult .signaled) = 255 ∧
    Session.sendExitStatusVal (Session.goWaitResult .startFailure) = 255 ∧
    (∀ t : Session.Termination,
      Session.sendExitStatusVal (Session.goWaitResult t) < 2 ^ 32) := by
  have hexit : ∀ code : Nat, code < 2 ^ 32 →
      Session.sendExitStatusVal (Session.goWaitResult (.exited code)) = code
    := by
    intro code hc
    cases code with
    | zero => rfl
    | succ n =>
        rw [show Session.goWaitResult (.exited (n + 1)) =
              .exitError ((n + 1 : Nat) : Int) from rfl,
            sendExitStatusVal_natCast]
        omega
  refine ⟨hexit, rfl, rfl, ?_⟩
  intro t
  cases t with
  | exited code =>
      cases code with
      | zero => norm_num [Session.goWaitResult, Session.sendExitStatusVal]
      | succ n =>
          rw [show Session.goWaitResult (.exited (n + 1)) =
                .exitError ((n + 1 : Nat) : Int) from rfl,
              sendExitStatusVal_natCast]
          exact Nat.mod_lt _ (by norm_num)
  | signaled => norm_num [Session.goWaitResult, Session.sendExitStatusVal]
  | startFailure => norm_num [Session.goWaitResult, Session.sendExitStatusVal]

/-- C8 witness: a normal exit with code 7 is reported as status 7. -/
theorem exit_status_mapping_witness :
    Session.sendExitStatusVal (Session.goWaitResult (.exited 7)) = 7 :=
  exit_status_mapping.1 7 (by norm_num)

/-- C9. Signal-name translation strips one leading `SIG` and recognises
exactly INT, TERM, KILL, QUIT and HUP (with or without the prefix); every
other name maps to no signal.  On a `signal` request, when the name is
recognised and the child is running the corresponding OS signal is sent
to the child; when the name is unrecognised, or no child is running, or
the payload fails to parse, no signal is sent; and the reply, when
requested, is `true` in every one of these cases. -/
theorem signal_translation_and_dispatch :
    (Session.sshSignalToOS "INT" = some .SIGINT ∧
     Session.sshSignalToOS "SIGINT" = some .SIGINT ∧
     Session.sshSignalToOS "TERM" = some .SIGTERM ∧
     Session.sshSignalToOS "SIGTERM" = some .SIGTERM ∧
     Session.sshSignalToOS "KILL" = some .SIGKILL ∧
     Session.sshSignalToOS "SIGKILL" = some .SIGKILL ∧
     Session.sshSignalToOS "QUIT" = some .SIGQUIT ∧
     Session.sshSignalToOS "SIGQUIT" = some .SIGQUIT ∧
     Session.sshSignalToOS "HUP" = some .SIGHUP ∧
     Session.sshSignalToOS "SIGHUP" = some .SIGHUP) ∧
    (∀ name : String,
       Session.trimSIG name ∉ ["INT", "TERM", "KILL", "QUIT", "HUP"] →
       Session.sshSignalToOS name = none) ∧
    (∀ (s : Session.GState) (name : String) (sig : Session.OSSignal)
       (wantReply launchOk : Bool),
       Session.sshSignalToOS name = some sig → s.cmd.isSome = true →
       Session.handleReq s (.signal (some name)) wantReply launchOk =
         (s, if wantReply then some true else none, [.signalChild sig])) ∧
    (∀ (s : Session.GState) (name : String) (wantReply launchOk : Bool),
       Session.sshSignalToOS name = none →
       Session.handleReq s (.signal (some name)) wantReply launchOk =
         (s, if wantReply then some true else none, [])) ∧
    (∀ (s : Session.GState) (wantReply launchOk : Bool),
       Session.handleReq s (.signal none) wantReply launchOk =
         (s, if wantReply then some true else none, [])) := by
  refine ⟨by decide, sshSignalToOS_unrecognised, ?_, ?_, ?_⟩
  · intro s name sig wantReply launchOk hsig hcmd
    simp [Session.handleReq, hsig, hcmd]
  · intro s name wantReply launchOk hsig
    simp [Session.handleReq, hsig]
  · intro s wantReply launchOk
    simp [Session.handleReq]

/-- C9 witness: `INT` on a started session sends SIGINT to the child and
replies `true`. -/
theorem signal_translation_and_dispatch_witness :
    Session.handleReq startedState (.signal (some "INT")) true true =
      (startedState, some true, [.signalChild .SIGINT]) :=
  signal_translation_and_dispatch.2.2.1 startedState "INT" .SIGINT true true
    (by decide) (by rfl)

/-- C10. For every configuration, after `applyDefaults` the listen
address is non-empty — an empty one is defaulted to `:<listen_port>` when
the port is positive and to `:2222` otherwise — so `validate` run after
defaulting (as `Load` does) can never return the
listen-address-is-required error. -/
theorem listen_address_default_total (envShell : String) (c : Config) :
    (c.applyDefaults envShell).listenAddress ≠ "" ∧
    (c.applyDefaults envShell).validate ≠ .error .listenAddressRequired := by
  have hne : (c.applyDefaults envShell).listenAddress ≠ "" := by
    rw [applyDefaults_listenAddress]
    split_ifs with h1 h2
    · exact colon_append_ne_empty _
    · decide
    · exact h1
  refine ⟨hne, ?_⟩
  unfold Config.validate
  rw [if_neg hne]
  split_ifs
  · simp
  · exact validateUsers_ne_listenAddressRequired _ _

/-- C10 witness: a concrete configuration with an empty listen address
gets a non-empty one after defaulting. -/
theorem listen_address_default_total_witness :
    ((Config.mk "" 0 "" "" [] "/etc").applyDefaults "").listenAddress ≠ "" :=
  (listen_address_default_total "" (Config.mk "" 0 "" "" [] "/etc")).1

end TinySSH
